import Mathlib

/-!
Verification of the `gomap` concurrency wrappers (`concurrentMap` and
`channelConcurrentMap` from `gomap/concurrent.go`).

Embedding conventions:
* Go `Key`/`Value` (`interface{}` payloads) are modelled as `Nat`; the Go zero
  value used for a missing entry is `0`.
* Go `int` results (lengths) are modelled as `Int`.
* The underlying `Map` collaborator is not part of the analysed source; it is
  kept abstract as a structure of pure operations on a state type, and, where a
  concrete instance is needed, modelled from the spec as an association list.
* Go channels appear in two forms: the per-operation reply channels are
  modelled by fresh identifiers allocated per call, and the coordinator's
  inbound channels by explicit queues inside a labelled transition system.
-/

namespace Gomap

abbrev Key := Nat

abbrev Value := Nat

/-- Modelled from the spec: the reference single-threaded map is an opaque-order
container of unique `Key → Value` entries; we realise it as an association
list with unique keys. -/
abbrev AList := List (Key × Value)

/-- Modelled from the spec: `Get(Key) → (Value, bool)`; a missing key yields
the zero value and `false`. -/
def alGet (m : AList) (k : Key) : Value × Bool :=
  match m.find? (fun e => e.1 == k) with
  | some e => (e.2, true)
  | none => (0, false)

/-- Modelled from the spec: `Contains(Key) → bool`. -/
def alContains (m : AList) (k : Key) : Bool :=
  m.any (fun e => e.1 == k)

/-- Modelled from the spec: `Set(Key, Value)` stores the entry, replacing an
existing entry with the same key. -/
def alSet (m : AList) (k : Key) (v : Value) : AList :=
  if m.any (fun e => e.1 == k) then
    m.map (fun e => if e.1 == k then (k, v) else e)
  else
    m ++ [(k, v)]

/-- Modelled from the spec: `Delete(Key)` removes the entry with the key, if
present. -/
def alDelete (m : AList) (k : Key) : AList :=
  m.filter (fun e => e.1 != k)

/-- Modelled from the spec: `Length() → int`, the number of entries. -/
def alLength (m : AList) : Int :=
  (m.length : Int)

/-- Modelled from the spec: `Keys() → sequence` of the stored keys, no ordering
guarantee. -/
def alKeys (m : AList) : List Key :=
  m.map (fun e => e.1)

/-- Modelled from the spec: the previous element and a found flag for the
variant-2 collaborator results of `Set`/`Delete`. -/
def alPrev (m : AList) (k : Key) : Value × Bool :=
  alGet m k

/-! ### Variant 1: the request-typed coordinator (`concurrentMap`) -/

/-- The collaborator contract required by `concurrentMap` from its underlying
`Map`, as used in `concurrentMap.loopMap`: `Clear`, `Contains`, `Delete → int`
(new length), `Get → (Value, bool)`, `Length → int`, `Set → int` (new length),
and `UnderlyingStorage → map[Key]Value` (a raw view of type `ρ`). The state
`σ` stands for the contents reachable through the `Map` reference. -/
structure MapOps (σ : Type) (ρ : Type) where
  clear : σ → σ
  containsOp : σ → Key → Bool
  deleteOp : σ → Key → σ × Int
  getOp : σ → Key → Value × Bool
  lengthOp : σ → Int
  setOp : σ → Key → Value → σ × Int
  underlyingStorage : σ → ρ

/-- The requests a `concurrentMap` caller can send, one constructor per typed
channel of the `concurrentMap` struct: `accessMapCh`, `accessStorageCh`,
`clearCh`, `containsCh` (`containsRequest`), `deleteCh` (`deleteRequest`),
`lenCh`, `getCh` (`getRequest`), `setCh` (`setRequest`). -/
inductive CRequest where
  | accessMap : CRequest
  | accessStorage : CRequest
  | clear : CRequest
  | contains (key : Key) : CRequest
  | delete (key : Key) : CRequest
  | length : CRequest
  | get (key : Key) : CRequest
  | set (key : Key) (value : Value) : CRequest
deriving DecidableEq, Repr

/-- The value the worker writes to a variant-1 reply channel: the `Map`
reference (`chan Map`), the raw storage view (`chan map[Key]Value`), the
`true` written after `Clear` (`chan interface{}`), a `bool`, an `int`, or a
`*getResult`. -/
inductive CReply (σ : Type) (ρ : Type) where
  | mapRef (m : σ) : CReply σ ρ
  | storageView (r : ρ) : CReply σ ρ
  | cleared : CReply σ ρ
  | found (b : Bool) : CReply σ ρ
  | lengthRep (n : Int) : CReply σ ρ
  | getRep (element : Value) (found : Bool) : CReply σ ρ
deriving DecidableEq, Repr

/-- The body of `concurrentMap.loopMap` for one received request: the `select`
arm matching the request's channel runs the corresponding operation on
`cm.storage` and writes the result to the request's reply channel. -/
def loopMapBody {σ ρ : Type} (ops : MapOps σ ρ) :
    CRequest → σ → σ × CReply σ ρ
  | .accessMap, m => (m, .mapRef m)
  | .accessStorage, m => (m, .storageView (ops.underlyingStorage m))
  | .clear, m => (ops.clear m, .cleared)
  | .contains k, m => (m, .found (ops.containsOp m k))
  | .delete k, m =>
      let r := ops.deleteOp m k
      (r.1, .lengthRep r.2)
  | .length, m => (m, .lengthRep (ops.lengthOp m))
  | .get k, m =>
      let r := ops.getOp m k
      (m, .getRep r.1 r.2)
  | .set k v, m =>
      let r := ops.setOp m k v
      (r.1, .lengthRep r.2)

/-- The capacity of the reply channel each `concurrentMap` caller method
allocates: every method calls `make(chan T, 0)`. -/
def cReplyCapacity : CRequest → Nat
  | .accessMap => 0
  | .accessStorage => 0
  | .clear => 0
  | .contains _ => 0
  | .delete _ => 0
  | .length => 0
  | .get _ => 0
  | .set _ _ => 0

/-! ### Variant 2: the uniform-message coordinator (`channelConcurrentMap`) -/

/-- The collaborator contract required by `channelConcurrentMap` from its
underlying `Map`, as used in `channelConcurrentMap.loopMap`: `Clear`,
`Contains`, `Delete → (prev, found)`, `Get → (element, found)`,
`Length → int`, `Keys → []interface{}`, `Set → (element, found)`, and
stringification (`fmt.Sprint(ccm.storage)`). -/
structure MapOps2 (σ : Type) where
  clear : σ → σ
  containsOp : σ → Key → Bool
  deleteOp : σ → Key → σ × (Value × Bool)
  getOp : σ → Key → Value × Bool
  lengthOp : σ → Int
  keysOp : σ → List Key
  setOp : σ → Key → Value → σ × (Value × Bool)
  sprint : σ → String

/-- The recognized requests of `channelConcurrentMap`, one constructor per
request struct sent on `requestCh`: `clearRequest`, `containsRequest`,
`deleteRequest`, `getRequest`, `lenRequest`, `keysRequest`, `setRequest`,
`stringRequest`. -/
inductive ChanRequest where
  | clear : ChanRequest
  | contains (key : Key) : ChanRequest
  | delete (key : Key) : ChanRequest
  | get (key : Key) : ChanRequest
  | length : ChanRequest
  | keys : ChanRequest
  | set (key : Key) (value : Value) : ChanRequest
  | string : ChanRequest
deriving DecidableEq, Repr

/-- The value the worker writes to a variant-2 reply channel: `true` after
`Clear`, a `bool`, a `*deleteResult`, a `*getResult`, an `int`, the key
sequence, a `*setResult`, or the formatted string. -/
inductive ChanReply where
  | done : ChanReply
  | found (b : Bool) : ChanReply
  | deleteRep (prev : Value) (found : Bool) : ChanReply
  | getRep (element : Value) (found : Bool) : ChanReply
  | lengthRep (n : Int) : ChanReply
  | keysRep (ks : List Key) : ChanReply
  | setRep (element : Value) (found : Bool) : ChanReply
  | strRep (s : String) : ChanReply
deriving DecidableEq, Repr

/-- The recognized arms of the `switch request := request.(type)` dispatch in
`channelConcurrentMap.loopMap`: run the matching operation on `ccm.storage`
and write the result to the request's embedded reply channel. -/
def loopMapBodyChan {σ : Type} (ops : MapOps2 σ) :
    ChanRequest → σ → σ × ChanReply
  | .clear, m => (ops.clear m, .done)
  | .contains k, m => (m, .found (ops.containsOp m k))
  | .delete k, m =>
      let r := ops.deleteOp m k
      (r.1, .deleteRep r.2.1 r.2.2)
  | .get k, m =>
      let r := ops.getOp m k
      (m, .getRep r.1 r.2)
  | .length, m => (m, .lengthRep (ops.lengthOp m))
  | .keys, m => (m, .keysRep (ops.keysOp m))
  | .set k v, m =>
      let r := ops.setOp m k v
      (r.1, .setRep r.2.1 r.2.2)
  | .string, m => (m, .strRep (ops.sprint m))

/-- A message received from `requestCh`. The channel has type
`chan interface{}`, so besides the eight recognized request structs it can in
principle carry a value of any other type; `unknown tyName` stands for such a
value, carrying the name `reflect.TypeOf` would report. -/
inductive ChanMessage where
  | known (r : ChanRequest) : ChanMessage
  | unknown (tyName : String) : ChanMessage
deriving DecidableEq, Repr

/-- Whether a message is one of the recognized request structs. -/
def ChanMessage.isKnown : ChanMessage → Bool
  | .known _ => true
  | .unknown _ => false

/-- The full `switch` dispatch of `channelConcurrentMap.loopMap`, including the
`default` arm: a recognized request is serviced by `loopMapBodyChan`; any other
message hits `panic(fmt.Sprintf("Unrecognized req type %v", reflect.TypeOf(request)))`,
modelled as `Except.error` carrying the panic message. -/
def dispatchMessage {σ : Type} (ops : MapOps2 σ) :
    ChanMessage → σ → Except String (σ × ChanReply)
  | .known r, m => .ok (loopMapBodyChan ops r m)
  | .unknown tyName, _ => .error ("Unrecognized req type " ++ tyName)

/-- The capacity of the reply channel each `channelConcurrentMap` caller method
allocates: every method calls `make(chan T, 0)`. -/
def chanReplyCapacity : ChanRequest → Nat
  | .clear => 0
  | .contains _ => 0
  | .delete _ => 0
  | .get _ => 0
  | .length => 0
  | .keys => 0
  | .set _ _ => 0
  | .string => 0

/-! ### System model: callers, reply channels, and the single worker

Both coordinators follow the same shape: caller methods only allocate a fresh
reply channel, send a request, and receive the reply; the single worker
goroutine started by the constructor is the only code that touches
`cm.storage`/`ccm.storage`. We model an instance as a labelled transition
system over the set of outstanding requests. Reply channels are identified by
the `Nat` allocated at the caller's `make(chan T, 0)`; the `Map` contents are
the `storage` field. The escape-hatch accessors reply with references whose
later use bypasses serialization (spec section 5); such external reads are
outside the operation set modelled here. -/

/-- Who performs a step: a caller task sending a request, the worker goroutine
servicing one, or a caller task receiving its reply. -/
inductive TaskLabel where
  | callerSend : TaskLabel
  | worker : TaskLabel
  | callerRecv : TaskLabel
deriving DecidableEq, Repr

/-- A coordinator instance: the underlying map contents, the allocator for
fresh reply-channel identifiers, the requests sent but not yet serviced, the
replies the worker has written (as channel id and value, kept as history), and
the reply channels already read by their callers. -/
structure Sys (Req Rep σ : Type) where
  storage : σ
  nextId : Nat
  pending : List (Nat × Req)
  replies : List (Nat × Rep)
  delivered : List Nat
deriving Repr

/-- The state right after the constructor: storage as passed, no outstanding
requests, the worker loop started and idle. -/
def Sys.init {Req Rep σ : Type} (m : σ) : Sys Req Rep σ :=
  { storage := m, nextId := 0, pending := [], replies := [], delivered := [] }

/-- One step of a coordinator instance with per-request dispatch `d` (the
`loopMap` body of the variant). A caller send allocates a fresh reply channel
and registers the request; the worker picks any outstanding request (the
`select`, resp. the shared channel, decides which), runs `d` on the storage,
and writes the single reply; a caller receive reads a written reply once. -/
inductive SysStep {Req Rep σ : Type} (d : Req → σ → σ × Rep) :
    Sys Req Rep σ → TaskLabel → Sys Req Rep σ → Prop where
  | send (s : Sys Req Rep σ) (r : Req) :
      SysStep d s TaskLabel.callerSend
        { s with pending := s.pending ++ [(s.nextId, r)], nextId := s.nextId + 1 }
  | worker (s : Sys Req Rep σ) (l1 l2 : List (Nat × Req)) (id : Nat) (r : Req) :
      s.pending = l1 ++ (id, r) :: l2 →
      SysStep d s TaskLabel.worker
        { s with storage := (d r s.storage).1,
                 pending := l1 ++ l2,
                 replies := s.replies ++ [(id, (d r s.storage).2)] }
  | recv (s : Sys Req Rep σ) (id : Nat) (rep : Rep) :
      (id, rep) ∈ s.replies → id ∉ s.delivered →
      SysStep d s TaskLabel.callerRecv { s with delivered := s.delivered ++ [id] }

/-- States reachable from a freshly constructed coordinator holding `m`. -/
inductive Reachable {Req Rep σ : Type} (d : Req → σ → σ × Rep) (m : σ) :
    Sys Req Rep σ → Prop where
  | init : Reachable d m (Sys.init m)
  | step {s s' : Sys Req Rep σ} {l : TaskLabel} :
      Reachable d m s → SysStep d s l s' → Reachable d m s'

/-- All reply-channel identifiers currently attached to a request or already
written to by the worker. -/
def chanIds {Req Rep σ : Type} (s : Sys Req Rep σ) : List Nat :=
  s.pending.map Prod.fst ++ s.replies.map Prod.fst

/-- Channel-identifier bookkeeping invariant: identifiers are pairwise
distinct (channels are single-use and never shared between requests) and below
the allocator. -/
def SysInv {Req Rep σ : Type} (s : Sys Req Rep σ) : Prop :=
  (chanIds s).Nodup ∧ ∀ id ∈ chanIds s, id < s.nextId

lemma perm_move_mid (A B C : List Nat) (a : Nat) :
    List.Perm ((A ++ B) ++ (C ++ [a])) ((A ++ a :: B) ++ C) := by
  have h1 : (A ++ B) ++ (C ++ [a]) = ((A ++ B) ++ C) ++ [a] := by
    simp [List.append_assoc]
  have h2 : List.Perm (((A ++ B) ++ C) ++ [a]) (a :: ((A ++ B) ++ C)) := by
    simpa using (@List.perm_middle Nat a ((A ++ B) ++ C) [])
  have h3 : List.Perm (a :: ((A ++ B) ++ C)) ((A ++ a :: B) ++ C) := by
    simpa [List.append_assoc] using (@List.perm_middle Nat a A (B ++ C)).symm
  rw [h1]
  exact h2.trans h3

lemma sysStep_preserves_inv {Req Rep σ : Type} {d : Req → σ → σ × Rep}
    {s s' : Sys Req Rep σ} {l : TaskLabel}
    (hs : SysStep d s l s') (h : SysInv s) : SysInv s' := by
  obtain ⟨hnd, hlt⟩ := h
  cases hs with
  | send r =>
      have hperm :
          List.Perm
            (chanIds { s with pending := s.pending ++ [(s.nextId, r)],
                              nextId := s.nextId + 1 })
            (s.nextId :: chanIds s) := by
        simp only [chanIds, List.map_append, List.map_cons, List.map_nil,
          List.append_assoc, List.singleton_append]
        exact List.perm_middle
      constructor
      · refine hperm.symm.nodup ?_
        refine List.nodup_cons.mpr ⟨fun hmem => ?_, hnd⟩
        exact absurd (hlt _ hmem) (lt_irrefl _)
      · intro id hid
        rcases List.mem_cons.mp (hperm.mem_iff.mp hid) with h1 | h2
        · show id < s.nextId + 1
          omega
        · exact Nat.lt_succ_of_lt (hlt _ h2)
  | worker l1 l2 id r hp =>
      have hperm :
          List.Perm
            (chanIds { s with storage := (d r s.storage).1,
                              pending := l1 ++ l2,
                              replies := s.replies ++ [(id, (d r s.storage).2)] })
            (chanIds s) := by
        simp only [chanIds, List.map_append, List.map_cons, List.map_nil, hp]
        exact perm_move_mid (l1.map Prod.fst) (l2.map Prod.fst)
          (s.replies.map Prod.fst) id
      constructor
      · exact hperm.symm.nodup hnd
      · intro i hi
        exact hlt _ (hperm.mem_iff.mp hi)
  | recv id rep hmem hnd2 =>
      exact ⟨hnd, hlt⟩

lemma reachable_inv {Req Rep σ : Type} {d : Req → σ → σ × Rep} {m : σ}
    {s : Sys Req Rep σ} (h : Reachable d m s) : SysInv s := by
  induction h with
  | init =>
      constructor
      · simp [chanIds, Sys.init]
      · intro id hid
        simp [chanIds, Sys.init] at hid
  | step _ hs ih => exact sysStep_preserves_inv hs ih

lemma sysStep_caller_frame {Req Rep σ : Type} {d : Req → σ → σ × Rep}
    {s s' : Sys Req Rep σ} {l : TaskLabel}
    (hs : SysStep d s l s') (hl : l ≠ TaskLabel.worker) :
    s'.storage = s.storage ∧ s'.replies = s.replies := by
  cases hs with
  | send r => exact ⟨rfl, rfl⟩
  | worker l1 l2 id r hp => exact absurd rfl hl
  | recv id rep hmem hnd => exact ⟨rfl, rfl⟩

lemma sysStep_worker_one_reply {Req Rep σ : Type} {d : Req → σ → σ × Rep}
    {s s' : Sys Req Rep σ}
    (hs : SysStep d s TaskLabel.worker s') :
    s'.replies.length = s.replies.length + 1 := by
  cases hs with
  | worker l1 l2 id r hp => simp

/-! ### The shared inbound channel and shutdown of `channelConcurrentMap` -/

/-- The shared inbound channel `requestCh`: its buffered messages in arrival
order, and whether it has been closed. -/
structure ReqChan where
  buffer : List ChanMessage
  closed : Bool
deriving DecidableEq, Repr

/-- The Go runtime semantics of the builtin `close`: closing an already-closed
channel panics with "close of closed channel" (modelled as `Except.error`);
otherwise the channel is marked closed, its buffered values still
receivable. -/
def closeChan (c : ReqChan) : Except String ReqChan :=
  if c.closed then Except.error "close of closed channel"
  else Except.ok { c with closed := true }

/-- A `channelConcurrentMap` instance: the `storage` field and its
`requestCh`. -/
structure CCMState (σ : Type) where
  storage : σ
  requestCh : ReqChan

/-- `channelConcurrentMap.Close`: `close(ccm.requestCh)`. -/
def ccmClose {σ : Type} (s : CCMState σ) : Except String (CCMState σ) :=
  (closeChan s.requestCh).map (fun c => { s with requestCh := c })

/-- `NewChannelConcurrentMap` allocates `requestCh` as
`make(chan interface{}, 1)`: capacity one. -/
def requestChCapacity : Nat := 1

/-- The state built by `NewChannelConcurrentMap(storage)`: the given storage
and a fresh, open, empty inbound channel (the worker is then started on it). -/
def newChannelConcurrentMap {σ : Type} (storage : σ) : CCMState σ :=
  { storage := storage, requestCh := { buffer := [], closed := false } }

/-- `channelConcurrentMap.loopMap` run against a channel that has been closed.
By Go channel semantics each message still buffered when `close` happened is
received with `ok = true` and dispatched through the `switch`; once the buffer
is empty the receive yields `ok = false` and the loop returns. The result
lists the replies written, in order, with the final storage; a `default` arm
panic propagates as `Except.error`. -/
def loopMapDrain {σ : Type} (ops : MapOps2 σ) :
    List ChanMessage → σ → Except String (List ChanReply × σ)
  | [], m => Except.ok ([], m)
  | msg :: rest, m =>
      match dispatchMessage ops msg m with
      | Except.error e => Except.error e
      | Except.ok p =>
          match loopMapDrain ops rest p.1 with
          | Except.error e => Except.error e
          | Except.ok q => Except.ok (p.2 :: q.1, q.2)

lemma loopMapDrain_length {σ : Type} (ops : MapOps2 σ) :
    ∀ (buf : List ChanMessage) (m : σ) (evs : List ChanReply) (mf : σ),
      loopMapDrain ops buf m = Except.ok (evs, mf) → evs.length = buf.length := by
  intro buf
  induction buf with
  | nil =>
      intro m evs mf h
      simp only [loopMapDrain, Except.ok.injEq, Prod.mk.injEq] at h
      simp [← h.1]
  | cons msg rest ih =>
      intro m evs mf h
      simp only [loopMapDrain] at h
      split at h
      · exact absurd h (by simp)
      · rename_i p hd
        split at h
        · exact absurd h (by simp)
        · rename_i q hrec
          simp only [Except.ok.injEq, Prod.mk.injEq] at h
          have hlen := ih p.1 q.1 q.2 (by rw [hrec])
          rw [← h.1]
          simp [hlen]

/-! ### Reference-cell model of `concurrentMap` for the escape hatches

Go's `Map` interface value and the `map[Key]Value` inside it are references:
handing them out does not copy the contents. `CMState` models one
`concurrentMap` with explicit reference identities so that "same reference"
and "reads through the view" are expressible: `storageRef` is the identity of
the `Map` value stored in the `storage` field at construction, `rawRef` the
identity of its raw `map[Key]Value` container, and `contents` the entries
currently held in that container. -/
structure CMState where
  storageRef : Nat
  rawRef : Nat
  contents : AList
deriving DecidableEq, Repr

/-- The coordinator state `NewConcurrentMap(storage)` builds: the `storage`
field holds exactly the passed `Map` reference. -/
def newConcurrentMap (storageRef rawRef : Nat) (contents : AList) : CMState :=
  { storageRef := storageRef, rawRef := rawRef, contents := contents }

/-- Variant-1 replies in the reference-cell model: `accessMapCh` answers with
the `Map` reference itself (`ar <- cm.storage`) and `accessStorageCh` with the
raw container (`ar <- cm.storage.UnderlyingStorage()`). Modelled from the
spec: `UnderlyingStorage` on the collaborator hands out the raw key/value
container of the live, still-owned map (the escape hatch of spec sections 4.1
and 5), here its reference identity. -/
inductive CReplyRef where
  | mapRef (r : Nat) : CReplyRef
  | storageView (r : Nat) : CReplyRef
  | cleared : CReplyRef
  | found (b : Bool) : CReplyRef
  | lengthRep (n : Int) : CReplyRef
  | getRep (element : Value) (found : Bool) : CReplyRef
deriving DecidableEq, Repr

/-- The body of `concurrentMap.loopMap` over the reference-cell model, with
the collaborator behaving as the reference map on the container contents. -/
def loopMapBodyRef : CRequest → CMState → CMState × CReplyRef
  | .accessMap, s => (s, .mapRef s.storageRef)
  | .accessStorage, s => (s, .storageView s.rawRef)
  | .clear, s => ({ s with contents := [] }, .cleared)
  | .contains k, s => (s, .found (alContains s.contents k))
  | .delete k, s =>
      ({ s with contents := alDelete s.contents k },
        .lengthRep (alLength (alDelete s.contents k)))
  | .length, s => (s, .lengthRep (alLength s.contents))
  | .get k, s => (s, .getRep (alGet s.contents k).1 (alGet s.contents k).2)
  | .set k v, s =>
      ({ s with contents := alSet s.contents k v },
        .lengthRep (alLength (alSet s.contents k v)))

/-- The worker servicing a sequence of requests in order: final state plus
the replies written, in order. -/
def runCM : List CRequest → CMState → CMState × List CReplyRef
  | [], s => (s, [])
  | r :: rest, s =>
      let p := loopMapBodyRef r s
      let q := runCM rest p.1
      (q.1, p.2 :: q.2)

/-- Dereferencing a raw-container reference in a coordinator state: the
container `r` refers to holds the current contents when `r` is the
coordinator's raw container reference, and nothing otherwise. -/
def readRef (s : CMState) (r : Nat) : Option AList :=
  if r = s.rawRef then some s.contents else none

/-- The property C7 asserts: the view `UnderlyingStorage` returns is
snapshot-style, i.e. reading it after any further serviced requests still
yields the contents from the moment it was returned. -/
def underlyingStorageSnapshotStyle : Prop :=
  ∀ (s : CMState) (v : Nat) (reqs : List CRequest),
    (loopMapBodyRef CRequest.accessStorage s).2 = CReplyRef.storageView v →
    readRef (runCM reqs s).1 v = some s.contents

lemma runCM_storageRef (reqs : List CRequest) (s : CMState) :
    (runCM reqs s).1.storageRef = s.storageRef := by
  induction reqs generalizing s with
  | nil => rfl
  | cons r rest ih =>
      cases r <;> simp [runCM, loopMapBodyRef, ih]

lemma runCM_rawRef (reqs : List CRequest) (s : CMState) :
    (runCM reqs s).1.rawRef = s.rawRef := by
  induction reqs generalizing s with
  | nil => rfl
  | cons r rest ih =>
      cases r <;> simp [runCM, loopMapBodyRef, ih]

/-! ### Caller round trips

A synchronous caller method allocates its reply channel, sends its request,
and blocks on the reply; with the worker idle the rendezvous hands the request
straight to the worker, which services it and writes the single reply the
caller then returns. The following functions compose one such round trip.
Each decoder reads the value from the caller's typed reply channel; the arms
for constructors the worker never sends on that channel are unreachable and
return the zero value. -/

/-- The `int` received from a `chan int` reply channel (`Delete`, `Length`,
`Set` of `concurrentMap`). -/
def decodeLen {σ ρ : Type} : CReply σ ρ → Int
  | .lengthRep n => n
  | _ => 0

/-- The pair `(result.element, result.found)` the `concurrentMap.Get` caller
builds from the received `*getResult`. -/
def decodeGet {σ ρ : Type} : CReply σ ρ → Value × Bool
  | .getRep v f => (v, f)
  | _ => (0, false)

/-- `concurrentMap.Delete`: sends a `deleteRequest` with a fresh `lenCh` and
returns the `int` the worker writes back; the map state advances by the
worker's servicing. -/
def cmDelete {σ ρ : Type} (ops : MapOps σ ρ) (m : σ) (k : Key) : σ × Int :=
  let r := loopMapBody ops (CRequest.delete k) m
  (r.1, decodeLen r.2)

/-- The pair `(result.prev, result.found)` the `channelConcurrentMap.Delete`
caller builds from the received `*deleteResult`. -/
def decodeDelete : ChanReply → Value × Bool
  | .deleteRep p f => (p, f)
  | _ => (0, false)

/-- The pair `(result.element, result.found)` the `channelConcurrentMap.Get`
caller builds from the received `*getResult`. -/
def decodeGet2 : ChanReply → Value × Bool
  | .getRep v f => (v, f)
  | _ => (0, false)

/-- The pair `(result.element, result.found)` the `channelConcurrentMap.Set`
caller builds from the received `*setResult`. -/
def decodeSet2 : ChanReply → Value × Bool
  | .setRep v f => (v, f)
  | _ => (0, false)

/-- `channelConcurrentMap.Delete`: sends a `deleteRequest` with a fresh
`resultCh` and returns `(result.prev, result.found)` from the worker's
reply. -/
def ccmDelete {σ : Type} (ops : MapOps2 σ) (m : σ) (k : Key) :
    σ × (Value × Bool) :=
  let r := loopMapBodyChan ops (ChanRequest.delete k) m
  (r.1, decodeDelete r.2)

/-! ### Single-caller operation sequences (refinement against the reference
map) -/

/-- A `Set`/`Get`/`Delete` operation issued by the single caller task. -/
inductive Op where
  | set (k : Key) (v : Value) : Op
  | get (k : Key) : Op
  | delete (k : Key) : Op
deriving DecidableEq, Repr

/-- The result a variant-1 operation returns to the caller: a new length for
`Set`/`Delete`, a `(value, found)` pair for `Get`. -/
inductive OpResult1 where
  | len (n : Int) : OpResult1
  | got (v : Value) (found : Bool) : OpResult1
deriving DecidableEq, Repr

/-- One synchronous caller operation against `concurrentMap`: the caller
method sends its request, the worker services it through `loopMap`, the
caller decodes the single reply. -/
def coordStep1 {σ ρ : Type} (ops : MapOps σ ρ) : Op → σ → σ × OpResult1
  | .set k v, m =>
      let r := loopMapBody ops (CRequest.set k v) m
      (r.1, .len (decodeLen r.2))
  | .get k, m =>
      let r := loopMapBody ops (CRequest.get k) m
      (r.1, .got (decodeGet r.2).1 (decodeGet r.2).2)
  | .delete k, m =>
      let r := loopMapBody ops (CRequest.delete k) m
      (r.1, .len (decodeLen r.2))

/-- The results a single caller task observes issuing the sequence in order
against one `concurrentMap`: each round trip completes before the next send
(the caller blocks on its reply channel). -/
def coordRun1 {σ ρ : Type} (ops : MapOps σ ρ) : List Op → σ → List OpResult1
  | [], _ => []
  | op :: rest, m =>
      let r := coordStep1 ops op m
      r.2 :: coordRun1 ops rest r.1

/-- Modelled from the spec: the reference single-threaded map as the variant-1
collaborator — `Set`/`Delete` return the new length, `Get` the
`(value, found)` pair, `UnderlyingStorage` the raw contents. -/
def refOps1 : MapOps AList AList where
  clear := fun _ => []
  containsOp := alContains
  deleteOp := fun m k => (alDelete m k, alLength (alDelete m k))
  getOp := alGet
  lengthOp := alLength
  setOp := fun m k v => (alSet m k v, alLength (alSet m k v))
  underlyingStorage := fun m => m

/-- Modelled from the spec: a reference single-threaded map executing the
same `Set`/`Get`/`Delete` sequence directly, in send order, observing after
each operation the variant-1 result: the new length for `Set`/`Delete`, the
`(value, found)` pair for `Get`. -/
def refRun1 : List Op → AList → List OpResult1
  | [], _ => []
  | Op.set k v :: rest, m =>
      OpResult1.len (alLength (alSet m k v)) :: refRun1 rest (alSet m k v)
  | Op.get k :: rest, m =>
      OpResult1.got (alGet m k).1 (alGet m k).2 :: refRun1 rest m
  | Op.delete k :: rest, m =>
      OpResult1.len (alLength (alDelete m k)) :: refRun1 rest (alDelete m k)

/-- One synchronous caller operation against `channelConcurrentMap`: each of
`Set`/`Get`/`Delete` returns an `(element, found)` pair decoded from the
worker's reply. -/
def coordStep2 {σ : Type} (ops : MapOps2 σ) : Op → σ → σ × (Value × Bool)
  | .set k v, m =>
      let r := loopMapBodyChan ops (ChanRequest.set k v) m
      (r.1, decodeSet2 r.2)
  | .get k, m =>
      let r := loopMapBodyChan ops (ChanRequest.get k) m
      (r.1, decodeGet2 r.2)
  | .delete k, m =>
      let r := loopMapBodyChan ops (ChanRequest.delete k) m
      (r.1, decodeDelete r.2)

/-- The results a single caller task observes issuing the sequence in order
against one `channelConcurrentMap`. -/
def coordRun2 {σ : Type} (ops : MapOps2 σ) : List Op → σ → List (Value × Bool)
  | [], _ => []
  | op :: rest, m =>
      let r := coordStep2 ops op m
      r.2 :: coordRun2 ops rest r.1

/-- Modelled from the spec: the reference single-threaded map as the variant-2
collaborator — `Set`/`Delete` return the previous `(element, found)` pair,
`Get` the `(value, found)` pair, plus `Keys` and stringification. -/
def refOps2 : MapOps2 AList where
  clear := fun _ => []
  containsOp := alContains
  deleteOp := fun m k => (alDelete m k, alPrev m k)
  getOp := alGet
  lengthOp := alLength
  keysOp := alKeys
  setOp := fun m k v => (alSet m k v, alPrev m k)
  sprint := fun m => reprStr m

/-- Modelled from the spec: a reference single-threaded map executing the
same `Set`/`Get`/`Delete` sequence directly, in send order, observing after
each operation the variant-2 result: the previous `(element, found)` pair for
`Set`/`Delete`, the `(value, found)` pair for `Get`. -/
def refRun2 : List Op → AList → List (Value × Bool)
  | [], _ => []
  | Op.set k v :: rest, m => alPrev m k :: refRun2 rest (alSet m k v)
  | Op.get k :: rest, m => alGet m k :: refRun2 rest m
  | Op.delete k :: rest, m => alPrev m k :: refRun2 rest (alDelete m k)

/-! ### Concrete states used by the witnesses -/

/-- A freshly constructed variant-1 instance over the empty reference map. -/
def wSys0 : Sys CRequest (CReply AList AList) AList :=
  Sys.init []

/-- `wSys0` after one caller has sent a `Length` request. -/
def wSys1 : Sys CRequest (CReply AList AList) AList :=
  { wSys0 with pending := [(0, CRequest.length)], nextId := 1 }

lemma loopMapBodyRef_storageRef (r : CRequest) (s : CMState) :
    (loopMapBodyRef r s).1.storageRef = s.storageRef := by
  cases r <;> rfl

lemma runCM_mapRef_replies (reqs : List CRequest) (s : CMState) :
    ∀ rep ∈ (runCM reqs s).2,
      ∀ x : Nat, rep = CReplyRef.mapRef x → x = s.storageRef := by
  induction reqs generalizing s with
  | nil =>
      intro rep h
      simp [runCM] at h
  | cons r rest ih =>
      intro rep h x hx
      simp only [runCM, List.mem_cons] at h
      rcases h with h | h
      · subst h
        cases r with
        | accessMap =>
            simp only [loopMapBodyRef, CReplyRef.mapRef.injEq] at hx
            exact hx.symm
        | accessStorage => simp [loopMapBodyRef] at hx
        | clear => simp [loopMapBodyRef] at hx
        | contains k => simp [loopMapBodyRef] at hx
        | delete k => simp [loopMapBodyRef] at hx
        | length => simp [loopMapBodyRef] at hx
        | get k => simp [loopMapBodyRef] at hx
        | set k v => simp [loopMapBodyRef] at hx
      · have hx2 := ih (loopMapBodyRef r s).1 rep h x hx
        rw [hx2]
        exact loopMapBodyRef_storageRef r s

/-! ### The claims -/

/-- Claim C1: for every coordinator instance of either variant, every read or
mutation of the underlying Map — every storage change and every reply value
computed from the storage — happens in a worker-labelled step of that
instance's dispatch loop, never in a caller-labelled step; the single worker's
atomic servicing of one request at a time (no lock appears in the model) keeps
at most one Map operation in flight. -/
theorem C1_worker_only_touches_map :
    (∀ (σ ρ : Type) (ops : MapOps σ ρ)
        (s s' : Sys CRequest (CReply σ ρ) σ) (l : TaskLabel),
        SysStep (loopMapBody ops) s l s' → l ≠ TaskLabel.worker →
        s'.storage = s.storage ∧ s'.replies = s.replies) ∧
    (∀ (σ : Type) (ops : MapOps2 σ)
        (s s' : Sys ChanRequest ChanReply σ) (l : TaskLabel),
        SysStep (loopMapBodyChan ops) s l s' → l ≠ TaskLabel.worker →
        s'.storage = s.storage ∧ s'.replies = s.replies) :=
  ⟨fun _ _ _ _ _ _ hs hl => sysStep_caller_frame hs hl,
   fun _ _ _ _ _ hs hl => sysStep_caller_frame hs hl⟩

/-- Witness for C1: a concrete caller-send step on a fresh variant-1 instance
leaves the storage and the written replies untouched. -/
theorem C1_witness :
    wSys1.storage = wSys0.storage ∧ wSys1.replies = wSys0.replies :=
  C1_worker_only_touches_map.1 AList AList refOps1 wSys0 wSys1
    TaskLabel.callerSend (SysStep.send wSys0 CRequest.length) (by decide)

/-- Claim C2: a single caller task issuing any `Set`/`Get`/`Delete` sequence
against one coordinator (either variant, with the collaborator behaving as the
reference map) observes after each operation exactly the result the reference
single-threaded map produces executing the same sequence in send order. -/
theorem C2_single_caller_refinement (opsL : List Op) (m : AList) :
    coordRun1 refOps1 opsL m = refRun1 opsL m ∧
    coordRun2 refOps2 opsL m = refRun2 opsL m := by
  constructor
  · induction opsL generalizing m with
    | nil => rfl
    | cons op rest ih =>
        cases op with
        | set k v =>
            show _ :: coordRun1 refOps1 rest (alSet m k v) =
              _ :: refRun1 rest (alSet m k v)
            rw [ih (alSet m k v)]
            rfl
        | get k =>
            show _ :: coordRun1 refOps1 rest m = _ :: refRun1 rest m
            rw [ih m]
            rfl
        | delete k =>
            show _ :: coordRun1 refOps1 rest (alDelete m k) =
              _ :: refRun1 rest (alDelete m k)
            rw [ih (alDelete m k)]
            rfl
  · induction opsL generalizing m with
    | nil => rfl
    | cons op rest ih =>
        cases op with
        | set k v =>
            show _ :: coordRun2 refOps2 rest (alSet m k v) =
              _ :: refRun2 rest (alSet m k v)
            rw [ih (alSet m k v)]
            rfl
        | get k =>
            show _ :: coordRun2 refOps2 rest m = _ :: refRun2 rest m
            rw [ih m]
            rfl
        | delete k =>
            show _ :: coordRun2 refOps2 rest (alDelete m k) =
              _ :: refRun2 rest (alDelete m k)
            rw [ih (alDelete m k)]
            rfl

/-- Claim C3: the uniform-message worker dispatch aborts immediately on a
message that is not one of the recognized request types, with a diagnostic
naming the offending type; every recognized request type is serviced, so the
abort branch is unreachable for it. -/
theorem C3_unknown_message_panics (σ : Type) (ops : MapOps2 σ) (m : σ) :
    (∀ tyName : String,
        dispatchMessage ops (ChanMessage.unknown tyName) m =
          Except.error ("Unrecognized req type " ++ tyName)) ∧
    (∀ msg : ChanMessage, msg.isKnown = true →
        ∃ p, dispatchMessage ops msg m = Except.ok p) := by
  constructor
  · intro t
    rfl
  · intro msg h
    cases msg with
    | known r => exact ⟨loopMapBodyChan ops r m, rfl⟩
    | unknown t => simp [ChanMessage.isKnown] at h

/-- Witness for C3: a concrete recognized message is serviced, not aborted. -/
theorem C3_witness :
    (ChanMessage.known ChanRequest.length).isKnown = true ∧
    ∃ p, dispatchMessage refOps2 (ChanMessage.known ChanRequest.length)
        ([] : AList) = Except.ok p :=
  ⟨rfl, (C3_unknown_message_panics AList refOps2 []).2
    (ChanMessage.known ChanRequest.length) rfl⟩

/-- Claim C4: `Close()` closes the shared inbound request channel; the worker
receive loop, once it observes the close, returns — it dispatches exactly the
messages received before observing the close (none when the buffer is empty)
and performs no dispatch after returning. -/
theorem C4_close_terminates_worker (σ : Type) (s : CCMState σ)
    (ops : MapOps2 σ) (h : s.requestCh.closed = false) :
    (∃ s', ccmClose s = Except.ok s' ∧ s'.requestCh.closed = true ∧
        s'.requestCh.buffer = s.requestCh.buffer) ∧
    (∀ m : σ, loopMapDrain ops [] m = Except.ok ([], m)) ∧
    (∀ (buf : List ChanMessage) (m : σ) (evs : List ChanReply) (mf : σ),
        loopMapDrain ops buf m = Except.ok (evs, mf) →
        evs.length = buf.length) := by
  refine ⟨⟨{ s with requestCh := { s.requestCh with closed := true } },
    ?_, rfl, rfl⟩, ?_, ?_⟩
  · simp [ccmClose, closeChan, h, Except.map]
  · intro m
    rfl
  · exact fun buf m evs mf hh => loopMapDrain_length ops buf m evs mf hh

/-- Witness for C4: closing a freshly constructed instance marks its channel
closed, and the worker loop on the closed empty channel returns with no
dispatch. -/
theorem C4_witness :
    (newChannelConcurrentMap ([] : AList)).requestCh.closed = false ∧
    (∃ s', ccmClose (newChannelConcurrentMap ([] : AList)) = Except.ok s' ∧
        s'.requestCh.closed = true ∧
        s'.requestCh.buffer = (newChannelConcurrentMap ([] : AList)).requestCh.buffer) ∧
    loopMapDrain refOps2 [] ([] : AList) = Except.ok ([], ([] : AList)) :=
  ⟨rfl,
   (C4_close_terminates_worker AList (newChannelConcurrentMap []) refOps2 rfl).1,
   (C4_close_terminates_worker AList (newChannelConcurrentMap []) refOps2 rfl).2.1 []⟩

/-- Claim C5: the worker writes exactly one value to each serviced request's
reply channel and never writes to it again (reply-channel identifiers are
pairwise distinct across all outstanding and answered requests, and a worker
step adds exactly one reply); each caller method allocates its reply channel
fresh per call with capacity zero. -/
theorem C5_reply_channels_single_use :
    (∀ (σ ρ : Type) (ops : MapOps σ ρ) (m : σ)
        (s : Sys CRequest (CReply σ ρ) σ),
        Reachable (loopMapBody ops) m s →
        (chanIds s).Nodup ∧ (s.replies.map Prod.fst).Nodup) ∧
    (∀ (σ : Type) (ops : MapOps2 σ) (m : σ)
        (s : Sys ChanRequest ChanReply σ),
        Reachable (loopMapBodyChan ops) m s →
        (chanIds s).Nodup ∧ (s.replies.map Prod.fst).Nodup) ∧
    (∀ (σ ρ : Type) (ops : MapOps σ ρ) (s s' : Sys CRequest (CReply σ ρ) σ),
        SysStep (loopMapBody ops) s TaskLabel.worker s' →
        s'.replies.length = s.replies.length + 1) ∧
    (∀ (σ : Type) (ops : MapOps2 σ) (s s' : Sys ChanRequest ChanReply σ),
        SysStep (loopMapBodyChan ops) s TaskLabel.worker s' →
        s'.replies.length = s.replies.length + 1) ∧
    (∀ r : CRequest, cReplyCapacity r = 0) ∧
    (∀ r : ChanRequest, chanReplyCapacity r = 0) := by
  refine ⟨?_, ?_, ?_, ?_, ?_, ?_⟩
  · intro σ ρ ops m s hr
    have h := reachable_inv hr
    exact ⟨h.1, List.Nodup.of_append_right h.1⟩
  · intro σ ops m s hr
    have h := reachable_inv hr
    exact ⟨h.1, List.Nodup.of_append_right h.1⟩
  · intro σ ρ ops s s' hs
    exact sysStep_worker_one_reply hs
  · intro σ ops s s' hs
    exact sysStep_worker_one_reply hs
  · intro r
    cases r <;> rfl
  · intro r
    cases r <;> rfl

/-- Witness for C5: the freshly constructed variant-1 instance is reachable
and its channel-identifier bookkeeping is duplicate-free. -/
theorem C5_witness :
    (chanIds wSys0).Nodup ∧ (wSys0.replies.map Prod.fst).Nodup :=
  C5_reply_channels_single_use.1 AList AList refOps1 [] wSys0 Reachable.init

/-- Claim C6: the request-typed coordinator's `Delete(key)` returns the new
length (an `int`) while the uniform-message coordinator's `Delete(key)`
returns the `(previous value, found)` pair, and in both cases the returned
value is exactly what the underlying Map's `Delete` produced for that call. -/
theorem C6_delete_result_shapes (σ ρ : Type) (ops : MapOps σ ρ)
    (ops2 : MapOps2 σ) (m : σ) (k : Key) :
    cmDelete ops m k = ops.deleteOp m k ∧
    ccmDelete ops2 m k = ops2.deleteOp m k := by
  constructor
  · simp [cmDelete, loopMapBody, decodeLen]
  · simp [ccmDelete, loopMapBodyChan, decodeDelete]

/-- Claim C7 as stated is false: on the concrete instance holding `[(1, 2)]`,
the view `UnderlyingStorage` returns shows the entry added by a later
`Set(3, 4)`, so it is not a snapshot-style view. -/
theorem C7_counterexample : ¬ underlyingStorageSnapshotStyle := fun h =>
  absurd (h (newConcurrentMap 1 2 [(1, 2)]) 2 [CRequest.set 3 4] rfl)
    (by decide)

/-- Claim C7 amended: `UnderlyingStorage()` returns the live raw key/value
container still owned by the worker — the reply carries the container's
reference, and reading through that reference after any further serviced
requests yields the then-current contents, so subsequent worker mutations
remain visible through the returned view. -/
theorem C7_underlying_storage_live (s : CMState) (reqs : List CRequest) :
    (loopMapBodyRef CRequest.accessStorage s).2 =
      CReplyRef.storageView s.rawRef ∧
    readRef (runCM reqs s).1 s.rawRef = some (runCM reqs s).1.contents := by
  constructor
  · rfl
  · simp [readRef, runCM_rawRef]

/-- Claim C8: `Close()` on the uniform-message coordinator is not idempotent:
the first call closes the shared inbound channel and a second call on the
same instance double-closes it, a fatal error (the Go close panic), not a
no-op. -/
theorem C8_close_not_idempotent (σ : Type) (s : CCMState σ)
    (h : s.requestCh.closed = false) :
    ∃ s', ccmClose s = Except.ok s' ∧
      ccmClose s' = Except.error "close of closed channel" := by
  refine ⟨{ s with requestCh := { s.requestCh with closed := true } }, ?_, ?_⟩
  · simp [ccmClose, closeChan, h, Except.map]
  · simp [ccmClose, closeChan, Except.map]

/-- Witness for C8: double-closing a freshly constructed instance is fatal. -/
theorem C8_witness :
    (newChannelConcurrentMap ([] : AList)).requestCh.closed = false ∧
    ∃ s', ccmClose (newChannelConcurrentMap ([] : AList)) = Except.ok s' ∧
      ccmClose s' = Except.error "close of closed channel" :=
  ⟨rfl, C8_close_not_idempotent AList (newChannelConcurrentMap []) rfl⟩

/-- Claim C9: for a coordinator built by `NewConcurrentMap(m)`, the `storage`
field holds the very Map reference `m` for the coordinator's whole lifetime —
no serviced request reassigns it — and every `UnderlyingMap()` request is
answered with exactly that reference. -/
theorem C9_storage_field_constant (storageRef rawRef : Nat) (contents : AList)
    (reqs : List CRequest) :
    (runCM reqs (newConcurrentMap storageRef rawRef contents)).1.storageRef =
      storageRef ∧
    (∀ (r : CRequest) (s : CMState),
        (loopMapBodyRef r s).1.storageRef = s.storageRef) ∧
    (∀ rep ∈ (runCM reqs (newConcurrentMap storageRef rawRef contents)).2,
        ∀ x : Nat, rep = CReplyRef.mapRef x → x = storageRef) := by
  refine ⟨?_, loopMapBodyRef_storageRef, ?_⟩
  · exact runCM_storageRef reqs (newConcurrentMap storageRef rawRef contents)
  · exact runCM_mapRef_replies reqs (newConcurrentMap storageRef rawRef contents)

/-- Witness for C9: on a concrete instance built with reference 7, one
`UnderlyingMap` request is answered with reference 7 and the field still
holds 7. -/
theorem C9_witness :
    (runCM [CRequest.accessMap] (newConcurrentMap 7 8 [])).1.storageRef = 7 ∧
    (7 : Nat) = 7 :=
  ⟨(C9_storage_field_constant 7 8 [] [CRequest.accessMap]).1,
   (C9_storage_field_constant 7 8 [] [CRequest.accessMap]).2.2
     (CReplyRef.mapRef 7) (by decide) 7 rfl⟩

/-- Claim C10: the shared inbound channel has capacity 1, and a request
message already enqueued in it when `Close()` is called is still dequeued,
serviced through its dispatch arm, and its reply written, before the worker
observes the close and returns — Close never silently drops an already-sent
request. -/
theorem C10_enqueued_request_serviced (σ : Type) (ops : MapOps2 σ)
    (r : ChanRequest) (m : σ) :
    requestChCapacity = 1 ∧
    loopMapDrain ops [ChanMessage.known r] m =
      Except.ok ([(loopMapBodyChan ops r m).2], (loopMapBodyChan ops r m).1) := by
  exact ⟨rfl, rfl⟩

end Gomap
